import Mathlib

/-!
Shallow embedding of the web2-round-robin-tournament repository: the
round-robin scheduler (modelled from the specification, since the module
providing `roundRobinTournament` is not among the provided sources) and
the tournament-creation form logic from
`src/components/AddTournamentForm.tsx`.
-/

/-- A tournament player as created by the form: 0-based id, display
name, and a score initialized to 0. -/
structure Player where
  id : Nat
  name : String
  points : Int

/-- A pairing within a round; `player2 = none` encodes a bye. -/
structure Pair where
  id : Nat
  player1 : Player
  player2 : Option Player

/-- A round of the schedule: 1-based id and its ordered pairs. -/
structure Round where
  id : Nat
  pairs : List Pair

/-- Rotation of the moving part of the circle: the last occupant moves
to the front, everyone else shifts up one slot (spec 4.1 step 4). -/
def rotBack {α : Type} (l : List α) : List α :=
  match l.reverse with
  | [] => []
  | x :: rest => x :: rest.reverse

/-- One rotation step of the whole circle: position 0 stays fixed, the
remaining positions rotate. -/
def stepCircle {α : Type} (c : List α) : List α :=
  match c with
  | [] => []
  | x :: rest => x :: rotBack rest

/-- Position pairs of one round for a circle of even size m: the fixed
position 0 meets the opposite slot m/2, and position i meets position
m - i for i = 1 .. m/2 - 1 (spec 4.1 step 3). -/
def positionPairs (m : Nat) : List (Nat × Nat) :=
  (0, m / 2) :: (List.range' 1 (m / 2 - 1)).map (fun i => (i, m - i))

/-- Occupants of two paired slots turned into an emitted pairing; the
synthetic placeholder (`none`) never appears in the output, its opponent
receives a bye instead (spec 4.1 step 1). -/
def slotToPair : Option Player → Option Player → Option (Player × Option Player)
  | some p, some q => some (p, some q)
  | some p, none => some (p, none)
  | none, some q => some (q, none)
  | none, none => none

/-- Pair ids are assigned as the 0-based index in generation order
(spec 4.1 step 5). -/
def attachIds : Nat → List (Player × Option Player) → List Pair
  | _, [] => []
  | k, pq :: rest => ⟨k, pq.1, pq.2⟩ :: attachIds (k + 1) rest

/-- All pairs of one round, read off the current circle. -/
def mkRoundPairs (c : List (Option Player)) : List Pair :=
  attachIds 0 ((positionPairs c.length).filterMap
    (fun ij => slotToPair (c.getD ij.1 none) (c.getD ij.2 none)))

/-- Rounds r, r+1, ... for the given number of remaining rounds,
rotating the circle once between consecutive rounds; round ids are
1-based (spec 4.1 step 6). -/
def roundsFrom : List (Option Player) → Nat → Nat → List Round
  | _, 0, _ => []
  | c, fuel + 1, r => ⟨r + 1, mkRoundPairs c⟩ :: roundsFrom (stepCircle c) fuel (r + 1)

/-- Modelled from the spec: the round-robin scheduler
`roundRobinTournament`, imported by the form from a utilities module
that is missing from the provided sources; this follows the circle
method of spec section 4.1: an odd player count gets one synthetic
placeholder appended, the circle keeps position 0 fixed and rotates the
rest between rounds, and one round is produced for every rotation state
(circle size minus one rounds in total). -/
def roundRobinTournament (players : List Player) : List Round :=
  let circle : List (Option Player) :=
    players.map some ++ (if players.length % 2 = 1 then [none] else [])
  roundsFrom circle (circle.length - 1) 0

/-- Id-level view of one pair: the first player id and the optional
second player id (`none` encodes a bye). -/
def pairIdsOf (pr : Pair) : Nat × Option Nat :=
  (pr.player1.id, pr.player2.map Player.id)

/-- Id-level view of a schedule: round id with the id pairs of its
rounds, order preserved. -/
def scheduleIds (rs : List Round) : List (Nat × List (Nat × Option Nat)) :=
  rs.map (fun r => (r.id, r.pairs.map pairIdsOf))

/-- All id-level pairings across a schedule, in round order. -/
def idPairsOf (s : List (Nat × List (Nat × Option Nat))) : List (Nat × Option Nat) :=
  s.flatMap (fun rp => rp.2)

/-- Does the id pair join real players i and j, in either slot order? -/
def isRealPairOf (i j : Nat) (pq : Nat × Option Nat) : Bool :=
  decide ((pq.1 = i ∧ pq.2 = some j) ∨ (pq.1 = j ∧ pq.2 = some i))

/-- Number of pairings joining real players i and j across the schedule. -/
def countRealPair (s : List (Nat × List (Nat × Option Nat))) (i j : Nat) : Nat :=
  (idPairsOf s).countP (isRealPairOf i j)

/-- Number of real-vs-real pairings in the whole schedule. -/
def countRealMatches (s : List (Nat × List (Nat × Option Nat))) : Nat :=
  (idPairsOf s).countP (fun pq => pq.2.isSome)

/-- Does the id pair mention player id i in either slot? -/
def pairMentions (i : Nat) (pq : Nat × Option Nat) : Bool :=
  decide (pq.1 = i ∨ pq.2 = some i)

/-- Is the id pair a bye awarded to player id i? -/
def isByeFor (i : Nat) (pq : Nat × Option Nat) : Bool :=
  decide (pq.1 = i ∧ pq.2 = none)

/-- Number of byes player id i receives across the schedule. -/
def countByesFor (s : List (Nat × List (Nat × Option Nat))) (i : Nat) : Nat :=
  (idPairsOf s).countP (isByeFor i)

/-- The ids mentioned by an id-level pair. -/
def pqIds (pq : Nat × Option Nat) : List Nat :=
  pq.1 :: pq.2.elim [] (fun j => [j])

/-- The ids mentioned by a Pair. -/
def prIds (pr : Pair) : List Nat :=
  pr.player1.id :: pr.player2.elim [] (fun q => [q.id])

/-- The canonical player list of length n: ids 0 .. n-1 in order. -/
def canonPlayers (n : Nat) : List Player :=
  (List.range n).map (fun i => ⟨i, "", 0⟩)

/-- JS `value.split(";")` on the underlying character list: split on
every semicolon, keeping empty segments. -/
def splitSemis : List Char → List (List Char)
  | [] => [[]]
  | c :: rest =>
    if c = ';' then [] :: splitSemis rest
    else
      match splitSemis rest with
      | [] => [[c]]
      | g :: gs => (c :: g) :: gs

/-- JS `value.split(";")` as strings. -/
def jsSplitSemi (s : String) : List String :=
  (splitSemis s.data).map String.mk

/-- JS `value.includes(";")` (a single-character search string). -/
def jsIncludesSemi (s : String) : Bool :=
  s.data.contains ';'

/-- The players-field check of the form schema: the string must contain
a semicolon, and splitting on ";" must give at least 4 and at most 8
entries, all non-empty (AddTournamentForm.tsx, lines 69-83). -/
def playersCheck (s : String) : Bool :=
  jsIncludesSemi s &&
    (decide (4 ≤ (jsSplitSemi s).length) && decide ((jsSplitSemi s).length ≤ 8) &&
      (jsSplitSemi s).all (fun pl => decide (0 < pl.length)))

/-- The `formattedPlayers` mapping of `onSubmit`: entry i becomes the
player with id i, that entry as its name, and 0 points
(AddTournamentForm.tsx, lines 107-113). -/
def playersFromNames : Nat → List String → List Player
  | _, [] => []
  | i, nm :: rest => ⟨i, nm, 0⟩ :: playersFromNames (i + 1) rest

/-- Player list built by `onSubmit` from the raw players string. -/
def formattedPlayers (s : String) : List Player :=
  playersFromNames 0 (jsSplitSemi s)

/-- Message of the title min-length check. -/
def minTitleMsg : String := "Tournament title must be at least 3 characters long"

/-- Message of the title uniqueness refine. -/
def refineTitleMsg : String := "Choose a different title"

/-- The async refine of the title field: an empty value fails;
otherwise the persisted record at the derived slug is looked up and the
check passes only when the lookup succeeds and finds nothing; a lookup
failure is caught and also fails the check (AddTournamentForm.tsx,
lines 46-68). -/
def titleRefine (lookup : String → Except Unit Bool) (slugf : String → String)
    (title : String) : Bool :=
  if title.length = 0 then false
  else
    match lookup (slugf title) with
    | Except.ok true => false
    | Except.ok false => true
    | Except.error _ => false

/-- Error messages produced by the title field: the min-length check
runs first and, when it fails, the refine is not executed
(AddTournamentForm.tsx, lines 42-68). -/
def titleErrors (lookup : String → Except Unit Bool) (slugf : String → String)
    (title : String) : List String :=
  if title.length < 3 then [minTitleMsg]
  else if titleRefine lookup slugf title then [] else [refineTitleMsg]

/-- A title is accepted when its field produces no error. -/
def titleAccepted (lookup : String → Except Unit Bool) (slugf : String → String)
    (title : String) : Bool :=
  (titleErrors lookup slugf title).isEmpty

/-- A lookup whose underlying database call always fails. -/
def errLookup : String → Except Unit Bool := fun _ => Except.error ()

/-- A lookup that reports an existing record at every slug. -/
def dupLookup : String → Except Unit Bool := fun _ => Except.ok true

/-- A trivial slug derivation, standing in for the slugify library. -/
def idSlug : String → String := fun t => t

/-- The switch on the player count in `onSubmit`
(AddTournamentForm.tsx, lines 115-128). -/
def numberOfRounds (n : Nat) : Nat :=
  match n with
  | 8 => 7
  | 7 => 7
  | 6 => 5
  | 5 => 5
  | _ => 3

/-- The tournament document assembled by `onSubmit` for persistence. -/
structure TournamentDoc where
  slug : String
  title : String
  userSub : String
  players : List Player
  pointSystem : String
  timestamp : Int

/-- Outcome of a submission: blocked before any work, or a batched
write of the tournament document together with its rounds. -/
inductive SubmitResult where
  | blocked : SubmitResult
  | write : TournamentDoc → List Round → SubmitResult

/-- The `onSubmit` control flow (AddTournamentForm.tsx, lines 100-177):
an absent user blocks creation before the scheduler or any write;
otherwise the player list is built, the unused round count is computed,
the schedule is generated, and everything is handed to one batched
write. -/
def onSubmitModel (user : Option String) (slugv title playersStr pointSystem : String)
    (now : Int) : SubmitResult :=
  match user with
  | none => SubmitResult.blocked
  | some sub =>
    let fp := formattedPlayers playersStr
    let _numberOfRounds := numberOfRounds fp.length
    SubmitResult.write ⟨slugv, title, sub, fp, pointSystem, now⟩ (roundRobinTournament fp)

/-- The same control flow with the `numberOfRounds` computation removed. -/
def onSubmitDropRounds (user : Option String) (slugv title playersStr pointSystem : String)
    (now : Int) : SubmitResult :=
  match user with
  | none => SubmitResult.blocked
  | some sub =>
    let fp := formattedPlayers playersStr
    SubmitResult.write ⟨slugv, title, sub, fp, pointSystem, now⟩ (roundRobinTournament fp)

/-- Pairings transported along a player transformation. -/
def mapPair (f : Player → Player) (pr : Pair) : Pair :=
  ⟨pr.id, f pr.player1, pr.player2.map f⟩

/-- Rounds transported along a player transformation. -/
def mapRound (f : Player → Player) (r : Round) : Round :=
  ⟨r.id, r.pairs.map (mapPair f)⟩

/-- Relabelling that replaces a player by the input-list entry at its id. -/
def relabel (p : List Player) : Player → Player :=
  fun q => p.getD q.id ⟨0, "", 0⟩

theorem getD_eq_get {α : Type} (l : List α) (d : α) {i : Nat} (h : i < l.length) :
    l.getD i d = l.get ⟨i, h⟩ := by
  induction l generalizing i with
  | nil => exact absurd h (by simp)
  | cons x xs ih =>
    cases i with
    | zero => rfl
    | succ j =>
      simp only [List.getD_cons_succ]
      exact ih (Nat.lt_of_succ_lt_succ h)

theorem range_map_getD {α : Type} (l : List α) (d : α) :
    (List.range l.length).map (fun i => l.getD i d) = l := by
  induction l with
  | nil => rfl
  | cons x xs ih =>
    rw [List.length_cons, List.range_succ_eq_map, List.map_cons, List.map_map]
    congr 1

theorem rotBack_map {α β : Type} (f : α → β) (l : List α) :
    rotBack (l.map f) = (rotBack l).map f := by
  unfold rotBack
  rw [← List.map_reverse]
  cases l.reverse with
  | nil => rfl
  | cons x rest => simp [List.map_reverse]

theorem stepCircle_map {α β : Type} (f : α → β) (c : List α) :
    stepCircle (c.map f) = (stepCircle c).map f := by
  cases c with
  | nil => rfl
  | cons x rest => simp [stepCircle, rotBack_map]

theorem getD_opt_map (f : Player → Player) (c : List (Option Player)) (i : Nat) :
    (c.map (Option.map f)).getD i none = Option.map f (c.getD i none) := by
  induction c generalizing i with
  | nil => rfl
  | cons x xs ih =>
    cases i with
    | zero => rfl
    | succ j => simpa using ih j

theorem slotToPair_map (f : Player → Player) (a b : Option Player) :
    slotToPair (a.map f) (b.map f)
      = (slotToPair a b).map (fun pq => (f pq.1, pq.2.map f)) := by
  cases a <;> cases b <;> rfl

theorem attachIds_map (f : Player → Player) (k : Nat) (l : List (Player × Option Player)) :
    attachIds k (l.map (fun pq => (f pq.1, pq.2.map f))) = (attachIds k l).map (mapPair f) := by
  induction l generalizing k with
  | nil => rfl
  | cons pq rest ih => simp [attachIds, mapPair, ih]

theorem mkRoundPairs_map (f : Player → Player) (c : List (Option Player)) :
    mkRoundPairs (c.map (Option.map f)) = (mkRoundPairs c).map (mapPair f) := by
  unfold mkRoundPairs
  rw [List.length_map]
  have hfun : (fun ij : Nat × Nat =>
        slotToPair ((c.map (Option.map f)).getD ij.1 none)
          ((c.map (Option.map f)).getD ij.2 none))
      = (fun ij : Nat × Nat =>
        Option.map (fun pq : Player × Option Player => (f pq.1, pq.2.map f))
          (slotToPair (c.getD ij.1 none) (c.getD ij.2 none))) := by
    funext ij
    rw [getD_opt_map, getD_opt_map, slotToPair_map]
  rw [hfun, ← List.map_filterMap, attachIds_map]

theorem roundsFrom_map (f : Player → Player) :
    ∀ (fuel : Nat) (c : List (Option Player)) (r : Nat),
      roundsFrom (c.map (Option.map f)) fuel r = (roundsFrom c fuel r).map (mapRound f) := by
  intro fuel
  induction fuel with
  | zero => intro c r; rfl
  | succ m ih =>
    intro c r
    simp only [roundsFrom, List.map_cons]
    rw [mkRoundPairs_map, stepCircle_map, ih]
    rfl

/-- Initial circle of the scheduler: input order, with the synthetic
placeholder appended for an odd player count. -/
def initCircle (players : List Player) : List (Option Player) :=
  players.map some ++ (if players.length % 2 = 1 then [none] else [])

theorem initCircle_map (f : Player → Player) (l : List Player) :
    initCircle (l.map f) = (initCircle l).map (Option.map f) := by
  unfold initCircle
  rw [List.length_map, List.map_append, List.map_map, List.map_map]
  congr 1
  split <;> rfl

theorem roundRobin_eq_initCircle (players : List Player) :
    roundRobinTournament players
      = roundsFrom (initCircle players) ((initCircle players).length - 1) 0 := rfl

theorem roundRobin_map (f : Player → Player) (l : List Player) :
    roundRobinTournament (l.map f) = (roundRobinTournament l).map (mapRound f) := by
  rw [roundRobin_eq_initCircle, roundRobin_eq_initCircle, initCircle_map, List.length_map]
  exact roundsFrom_map f _ _ 0

theorem scheduleIds_mapRound (f : Player → Player) (rs : List Round)
    (H : ∀ r ∈ rs, ∀ pr ∈ r.pairs, pairIdsOf (mapPair f pr) = pairIdsOf pr) :
    scheduleIds (rs.map (mapRound f)) = scheduleIds rs := by
  unfold scheduleIds
  rw [List.map_map]
  refine List.map_congr_left ?_
  intro r hr
  simp only [Function.comp, mapRound]
  congr 1
  rw [List.map_map]
  exact List.map_congr_left (fun pr hpr => H r hr pr hpr)

theorem length_scheduleIds (rs : List Round) : (scheduleIds rs).length = rs.length := by
  unfold scheduleIds
  exact List.length_map _ _

/-- Transfer lemma: a player list whose ids equal positions produces a
schedule with the same id-level content as the canonical list of the
same length. -/
theorem schedIds_transfer (p : List Player) (n : Nat) (hn : p.length = n)
    (hid : ∀ i (h : i < p.length), (p.get ⟨i, h⟩).id = i)
    (hall : ∀ r ∈ roundRobinTournament (canonPlayers n), ∀ pr ∈ r.pairs,
      ∀ k ∈ prIds pr, k < n) :
    scheduleIds (roundRobinTournament p)
      = scheduleIds (roundRobinTournament (canonPlayers n)) := by
  have hfid : ∀ q : Player, q.id < n → (relabel p q).id = q.id := by
    intro q hq
    have hlt : q.id < p.length := by rw [hn]; exact hq
    unfold relabel
    rw [getD_eq_get p _ hlt]
    exact hid q.id hlt
  have hp : (canonPlayers n).map (relabel p) = p := by
    subst hn
    unfold canonPlayers
    rw [List.map_map]
    exact range_map_getD p ⟨0, "", 0⟩
  have Hpres : ∀ r ∈ roundRobinTournament (canonPlayers n), ∀ pr ∈ r.pairs,
      pairIdsOf (mapPair (relabel p) pr) = pairIdsOf pr := by
    intro r hr pr hpr
    have h1 : pr.player1.id < n := hall r hr pr hpr pr.player1.id (by simp [prIds])
    have e1 : (relabel p pr.player1).id = pr.player1.id := hfid _ h1
    unfold pairIdsOf mapPair
    cases hq : pr.player2 with
    | none => simp [e1, hq]
    | some q =>
      have h2 : q.id < n := hall r hr pr hpr q.id (by simp [prIds, hq])
      simp [e1, hq, hfid q h2]
  calc scheduleIds (roundRobinTournament p)
      = scheduleIds (roundRobinTournament ((canonPlayers n).map (relabel p))) := by rw [hp]
    _ = scheduleIds ((roundRobinTournament (canonPlayers n)).map (mapRound (relabel p))) := by
        rw [roundRobin_map]
    _ = scheduleIds (roundRobinTournament (canonPlayers n)) :=
        scheduleIds_mapRound (relabel p) _ Hpres

theorem mentions_le_one (prs : List (Nat × Option Nat)) (n : Nat)
    (hlt : ∀ pq ∈ prs, ∀ k ∈ pqIds pq, k < n)
    (hsmall : ∀ i, i < n → prs.countP (pairMentions i) ≤ 1) :
    ∀ i, prs.countP (pairMentions i) ≤ 1 := by
  intro i
  by_cases hi : i < n
  · exact hsmall i hi
  · have hz : prs.countP (pairMentions i) = 0 := by
      rw [List.countP_eq_zero]
      intro pq hpq
      have h1 : pq.1 < n := hlt pq hpq pq.1 (by simp [pqIds])
      simp only [pairMentions, decide_eq_true_eq]
      rintro (rfl | h2)
      · omega
      · have h3 : i < n := hlt pq hpq i (by simp [pqIds, h2])
        omega
    omega

theorem sched_mentions_aux (s : List (Nat × List (Nat × Option Nat))) (n : Nat)
    (h1 : ∀ rp ∈ s, ∀ pq ∈ rp.2, ∀ k ∈ pqIds pq, k < n)
    (h2 : ∀ rp ∈ s, ∀ i, i < n → rp.2.countP (pairMentions i) ≤ 1) :
    ∀ rp ∈ s, ∀ i, rp.2.countP (pairMentions i) ≤ 1 :=
  fun rp hrp i => mentions_le_one rp.2 n (h1 rp hrp) (h2 rp hrp) i

/-- C1: for every list of 4 to 8 players whose ids equal their 0-based
input positions (the scheduler precondition, which makes the players
distinct), the schedule pairs every two distinct real players exactly
once, contains exactly C(N,2) real-vs-real pairings in total, and
consists of N - 1 rounds when N is even and N rounds when N is odd. -/
theorem c1_every_pair_exactly_once (p : List Player)
    (h4 : 4 ≤ p.length) (h8 : p.length ≤ 8)
    (hid : ∀ i (h : i < p.length), (p.get ⟨i, h⟩).id = i) :
    (∀ j, j < p.length → ∀ i, i < j →
        countRealPair (scheduleIds (roundRobinTournament p)) i j = 1) ∧
    countRealMatches (scheduleIds (roundRobinTournament p)) = Nat.choose p.length 2 ∧
    (roundRobinTournament p).length =
      (if p.length % 2 = 0 then p.length - 1 else p.length) := by
  have hcase : p.length = 4 ∨ p.length = 5 ∨ p.length = 6 ∨ p.length = 7 ∨ p.length = 8 := by
    omega
  rcases hcase with h | h | h | h | h <;>
    (have key := schedIds_transfer p _ h hid (by decide);
     rw [← length_scheduleIds, key, h];
     decide)

/-- C1 witness: the canonical five players, pair 0 vs 1 appears once. -/
theorem c1_every_pair_exactly_once_witness :
    countRealPair (scheduleIds (roundRobinTournament (canonPlayers 5))) 0 1 = 1 :=
  (c1_every_pair_exactly_once (canonPlayers 5) (by decide) (by decide) (by decide)).1
    1 (by decide) 0 (by decide)

/-- C2: in every round of the schedule of a 4-to-8 player list (ids
equal to positions), no player id is mentioned by more than one pair. -/
theorem c2_no_player_twice_in_round (p : List Player)
    (h4 : 4 ≤ p.length) (h8 : p.length ≤ 8)
    (hid : ∀ i (h : i < p.length), (p.get ⟨i, h⟩).id = i) :
    ∀ rp ∈ scheduleIds (roundRobinTournament p), ∀ i : Nat,
      rp.2.countP (pairMentions i) ≤ 1 := by
  have hcase : p.length = 4 ∨ p.length = 5 ∨ p.length = 6 ∨ p.length = 7 ∨ p.length = 8 := by
    omega
  rcases hcase with h | h | h | h | h <;>
    (have key := schedIds_transfer p _ h hid (by decide);
     rw [key];
     exact sched_mentions_aux _ 8 (by decide) (by decide))

/-- C2 witness: the first round of the canonical four-player schedule. -/
theorem c2_no_player_twice_in_round_witness :
    ((1, [(0, (some 2 : Option Nat)), (1, some 3)])
        : Nat × List (Nat × Option Nat)).2.countP (pairMentions 0) ≤ 1 :=
  c2_no_player_twice_in_round (canonPlayers 4) (by decide) (by decide) (by decide)
    (1, [(0, some 2), (1, some 3)]) (by decide) 0

/-- C3: for an odd player count (5 or 7, ids equal to positions), every
player receives exactly one bye across the schedule and every round
contains exactly one bye. -/
theorem c3_one_bye_each (p : List Player)
    (hodd : p.length = 5 ∨ p.length = 7)
    (hid : ∀ i (h : i < p.length), (p.get ⟨i, h⟩).id = i) :
    (∀ i, i < p.length → countByesFor (scheduleIds (roundRobinTournament p)) i = 1) ∧
    (∀ rp ∈ scheduleIds (roundRobinTournament p),
      rp.2.countP (fun pq => pq.2.isNone) = 1) := by
  rcases hodd with h | h <;>
    (have key := schedIds_transfer p _ h hid (by decide);
     rw [key, h];
     decide)

/-- C3 witness: canonical five players, player 0 gets exactly one bye. -/
theorem c3_one_bye_each_witness :
    countByesFor (scheduleIds (roundRobinTournament (canonPlayers 5))) 0 = 1 :=
  (c3_one_bye_each (canonPlayers 5) (Or.inl (by decide)) (by decide)).1 0 (by decide)

/-- C4: the scheduler model is a pure function, so two invocations on
the same input sequence return the identical round and pair structure;
no randomness or clock input exists in the model. -/
theorem c4_deterministic (p q : List Player) (h : p = q) :
    roundRobinTournament p = roundRobinTournament q := by rw [h]

/-- C4 witness: determinism at the canonical four-player input. -/
theorem c4_deterministic_witness :
    roundRobinTournament (canonPlayers 4) = roundRobinTournament (canonPlayers 4) :=
  c4_deterministic (canonPlayers 4) (canonPlayers 4) rfl

theorem string_len_pos_iff (s : String) : 0 < s.length ↔ s ≠ "" := by
  constructor
  · intro h heq
    subst heq
    exact absurd h (by decide)
  · intro h
    cases s with
    | mk data =>
      cases data with
      | nil => exact absurd (by decide : String.mk [] = "") h
      | cons c cs => exact Nat.succ_pos cs.length

/-- C5: the players field accepts exactly the strings that contain a
semicolon and split on ";" into between 4 and 8 entries, all of them
non-empty. -/
theorem c5_players_validation (s : String) :
    playersCheck s = true ↔
      (jsIncludesSemi s = true ∧ 4 ≤ (jsSplitSemi s).length ∧
        (jsSplitSemi s).length ≤ 8 ∧ ∀ pl ∈ jsSplitSemi s, pl ≠ "") := by
  unfold playersCheck
  simp only [Bool.and_eq_true, decide_eq_true_eq, List.all_eq_true, and_assoc]
  constructor
  · rintro ⟨h1, h2, h3, h4⟩
    exact ⟨h1, h2, h3, fun pl hpl => (string_len_pos_iff pl).mp (h4 pl hpl)⟩
  · rintro ⟨h1, h2, h3, h4⟩
    exact ⟨h1, h2, h3, fun pl hpl => (string_len_pos_iff pl).mpr (h4 pl hpl)⟩

theorem playersFromNames_get (l : List String) (k i : Nat) :
    (playersFromNames k l).get? i = (l.get? i).map (fun nm => ⟨k + i, nm, 0⟩) := by
  induction l generalizing k i with
  | nil => simp [playersFromNames]
  | cons nm rest ih =>
    cases i with
    | zero => simp [playersFromNames]
    | succ j =>
      simp only [playersFromNames, List.get?_cons_succ]
      rw [ih (k + 1) j]
      cases h : rest.get? j with
      | none => rfl
      | some a =>
        have e : k + 1 + j = k + (j + 1) := by omega
        simp [e]

/-- C6: on an accepted players string, entry i (0-based) becomes the
player with id i, that entry as its name, and 0 points. -/
theorem c6_player_from_entry (s : String) (i : Nat) (nm : String)
    (h : (jsSplitSemi s).get? i = some nm) :
    (formattedPlayers s).get? i = some ⟨i, nm, 0⟩ := by
  unfold formattedPlayers
  rw [playersFromNames_get, h]
  simp

/-- C6 witness: the second entry of a concrete players string. -/
theorem c6_player_from_entry_witness :
    (formattedPlayers ("a;b;c;d")).get? 1 = some ⟨1, "b", 0⟩ :=
  c6_player_from_entry ("a;b;c;d") 1 ("b") (by decide)

/-- C7 counterexample: a three-character title whose slug has no
persisted record is still rejected when the lookup fails, so acceptance
is not equivalent to passing the two checks named by the claim. -/
theorem c7_counterexample : ¬ (titleAccepted errLookup idSlug ("abc") = true ↔
    (3 ≤ ("abc" : String).length ∧ errLookup (idSlug ("abc")) ≠ Except.ok true)) :=
  fun hiff =>
    absurd (hiff.mpr ⟨by decide, by simp [errLookup, idSlug]⟩) (by decide)

/-- C7 amended: a title is accepted exactly when it has at least 3
characters and the uniqueness lookup at its derived slug succeeds and
finds no persisted record; both a found duplicate and a failed lookup
reject it. -/
theorem c7_title_validation (lookup : String → Except Unit Bool)
    (slugf : String → String) (title : String) :
    titleAccepted lookup slugf title = true ↔
      (3 ≤ title.length ∧ lookup (slugf title) = Except.ok false) := by
  unfold titleAccepted titleErrors titleRefine
  by_cases h3 : title.length < 3
  · rw [if_pos h3]
    constructor
    · intro hh
      exact absurd hh (by simp)
    · rintro ⟨hc, -⟩
      omega
  · have hge : 3 ≤ title.length := by omega
    have h0 : ¬ title.length = 0 := by omega
    rw [if_neg h3, if_neg h0]
    rcases hl : lookup (slugf title) with e | b
    · simp
    · cases b
      · simp [hge]
      · simp

/-- C8: with no authenticated user, `onSubmit` stops before invoking
the scheduler and before any persistence write: the outcome is
`blocked`, carrying no tournament document and no rounds. -/
theorem c8_unauthenticated_blocked (slugv title playersStr pointSystem : String)
    (now : Int) :
    onSubmitModel none slugv title playersStr pointSystem now = SubmitResult.blocked := rfl

/-- C9: for every accepted player count, the switch value equals N - 1
for even N and N for odd N, and removing the computation leaves the
submission outcome unchanged, so the value is never consumed. -/
theorem c9_number_of_rounds :
    (∀ n, 4 ≤ n → n ≤ 8 → numberOfRounds n = (if n % 2 = 0 then n - 1 else n)) ∧
    onSubmitModel = onSubmitDropRounds := by
  constructor
  · intro n h4 h8
    interval_cases n <;> rfl
  · funext u a b c d e
    cases u <;> rfl

/-- C9 witness: six players give five rounds. -/
theorem c9_number_of_rounds_witness :
    numberOfRounds 6 = (if 6 % 2 = 0 then 6 - 1 else 6) :=
  c9_number_of_rounds.1 6 (by decide) (by decide)

/-- C10: when the uniqueness lookup fails, the title field behaves
exactly as when a duplicate is found: the refine fails and the single
error is the same "Choose a different title" message, so creation is
blocked at the validation step. -/
theorem c10_lookup_error_as_duplicate (lookup : String → Except Unit Bool)
    (slugf : String → String) (title : String)
    (herr : lookup (slugf title) = Except.error ())
    (hlen : 3 ≤ title.length) :
    titleErrors lookup slugf title = titleErrors dupLookup slugf title ∧
    titleErrors lookup slugf title = [refineTitleMsg] := by
  have h3 : ¬ title.length < 3 := by omega
  have h0 : ¬ title.length = 0 := by omega
  unfold titleErrors titleRefine dupLookup
  rw [herr, if_neg h3, if_neg h0]
  exact ⟨rfl, rfl⟩

/-- C10 witness: a failing lookup on a concrete three-character title. -/
theorem c10_lookup_error_as_duplicate_witness :
    titleErrors errLookup idSlug ("abc") = titleErrors dupLookup idSlug ("abc") ∧
    titleErrors errLookup idSlug ("abc") = [refineTitleMsg] :=
  c10_lookup_error_as_duplicate errLookup idSlug ("abc") rfl (by decide)
